import Mathlib

/-!
Verification development for the Strangeness repository, centered on
`MainAnalysis/20260213_KtoPi/KtoPiAnalysis.cpp` and
`CommonCode/source/StrangenessMessenger.cpp`.

Modelling conventions (shallow embedding):
* C++ `double` values are modelled as `ℚ`.  All arithmetic the claims touch
  (histogram filling, bin finding, ratio building, 2x2 matrix inversion) is
  exact field arithmetic, so `ℚ` is faithful to the source expressions.
  The `acos` call in the event selection is modelled with `Real.arccos`.
* C++ `int` / `long long` values are modelled as `ℤ` (the values involved are
  far from any overflow boundary, e.g. particle counts below 10000).
* A ROOT `TH1D` is modelled by `Hist`: uniform binning described by
  `nbins`, `xlo`, `xhi`, with per-bin content and per-bin sum of squared
  weights (`fSumw2`).  Bin index 0 is the underflow bin and `nbins + 1` the
  overflow bin, exactly as in ROOT.  A bin error in ROOT is
  `sqrt (fSumw2 bin)`; we always track the stored quantity `fSumw2`
  (the squared error), which keeps the embedding in exact arithmetic.
* Fixed-capacity C arrays of the messenger are modelled as total functions
  `ℕ → ℚ` (or `ℕ → ℤ`); the analysis only ever reads indices below the
  clamped counts, which is itself one of the verified claims.
-/

/-- Compiled capacity of the reconstructed-particle arrays
(`STRANGE_MAX_RECO` in `StrangenessMessenger.h`). -/
def STRANGE_MAX_RECO : ℤ := 10000

/-- Compiled capacity of the generator-particle arrays
(`STRANGE_MAX_GEN` in `StrangenessMessenger.h`). -/
def STRANGE_MAX_GEN : ℤ := 10000

/-- The fields of one event record exposed by `StrangenessTreeMessenger`
that the KtoPi analysis reads.  Field names follow the messenger. -/
structure EventRecord where
  Nch : ℤ
  ThrustZ : ℚ
  NGen : ℤ
  GenID : ℕ → ℤ
  NReco : ℤ
  RecoE : ℕ → ℚ
  RecoCharge : ℕ → ℚ
  RecoPIDKaon : ℕ → ℤ
  RecoPIDPion : ℕ → ℤ
  RecoPIDProton : ℕ → ℤ
  RecoEfficiencyKAsK : ℕ → ℚ
  RecoEfficiencyKAsPi : ℕ → ℚ
  RecoEfficiencyPiAsK : ℕ → ℚ
  RecoEfficiencyPiAsPi : ℕ → ℚ

/-- Model of a ROOT `TH1D` with uniform binning.  `contents b` is the bin
content of bin `b` (0 = underflow, `nbins + 1` = overflow) and `sumw2 b`
is the stored sum of squared weights of bin `b` (`fSumw2`; the ROOT bin
error is its square root). -/
structure Hist where
  nbins : ℕ
  xlo : ℚ
  xhi : ℚ
  contents : ℕ → ℚ
  sumw2 : ℕ → ℚ

/-- ROOT `TAxis::FindBin` for a uniformly binned axis: underflow for
`x < xlo`, overflow for `x ≥ xhi`, otherwise
`1 + int (nbins * (x - xlo) / (xhi - xlo))` (the quotient is nonnegative
in range, so C truncation and `Int.floor` agree). -/
def Hist.FindBin (h : Hist) (x : ℚ) : ℕ :=
  if x < h.xlo then 0
  else if h.xhi ≤ x then h.nbins + 1
  else 1 + (Int.floor ((h.nbins : ℚ) * (x - h.xlo) / (h.xhi - h.xlo))).toNat

/-- ROOT `TH1::Fill (x, w)` on a histogram with `Sumw2` active: add `w` to
the content of the bin containing `x` and `w * w` to its `fSumw2` entry. -/
def Hist.Fill (h : Hist) (x w : ℚ) : Hist :=
  let b := h.FindBin x
  { h with
    contents := Function.update h.contents b (h.contents b + w)
    sumw2 := Function.update h.sumw2 b (h.sumw2 b + w * w) }

/-- ROOT `TH1::Divide` (`h1.Divide h2` models `hRatio = h1 clone; hRatio->Divide(h2)`):
per bin, content `c1 / c2` when `c2 ≠ 0` and `0` otherwise; with `Sumw2`
active the stored squared error becomes
`(e1² c2² + e2² c1²) / c2⁴` when `c2 ≠ 0` and `0` otherwise. -/
def Hist.Divide (h1 h2 : Hist) : Hist :=
  { h1 with
    contents := fun b =>
      if h2.contents b = 0 then 0 else h1.contents b / h2.contents b
    sumw2 := fun b =>
      if h2.contents b = 0 then 0
      else (h1.sumw2 b * (h2.contents b) ^ 2 + h2.sumw2 b * (h1.contents b) ^ 2)
             / (h2.contents b) ^ 4 }

/-- Histogram booking of `KtoPiAnalyzer::KtoPiAnalyzer`:
`new TH1D ("hK", ..., maxNchTag / 4 + 1, -0.5, maxNchTag + 0.5)` followed by
`Sumw2 ()`; `hPi` is a clone with the same binning.  (`maxNchTag / 4` is C
integer division; for the nonnegative configurations of interest it agrees
with Lean's `ℤ` division.) -/
def bookYieldHist (maxNchTag : ℤ) : Hist :=
  { nbins := (maxNchTag / 4 + 1).toNat
    xlo := -(1 / 2)
    xhi := (maxNchTag : ℚ) + 1 / 2
    contents := fun _ => 0
    sumw2 := fun _ => 0 }

/-- Overflow clamp of `KtoPiAnalyzer::analyze`:
`if (NchTag > par.MaxNchTag) NchTag = par.MaxNchTag`. -/
def clampTag (maxNchTag : ℤ) (NchTag : ℤ) : ℤ :=
  if maxNchTag < NchTag then maxNchTag else NchTag

/-- The fill stage of the event loop, given the per-event classification
results: for each selected event carrying `(NchTag, nK, nPi)` the code runs
the overflow clamp and then `hK->Fill (NchTag, nK); hPi->Fill (NchTag, nPi)`,
starting from the freshly booked pair of yield histograms. -/
def fillYields (maxNchTag : ℤ) (events : List (ℤ × ℤ × ℤ)) : Hist × Hist :=
  events.foldl
    (fun p e =>
      let t := clampTag maxNchTag e.1
      (p.1.Fill (t : ℚ) ((e.2.1 : ℤ) : ℚ), p.2.Fill (t : ℚ) ((e.2.2 : ℤ) : ℚ)))
    (bookYieldHist maxNchTag, bookYieldHist maxNchTag)

/-- The concrete scenario of claim C2: four selected events with
multiplicity tags 3, 3, 70, 5, kaon tag counts 1, 2, 0, 1 and pion tag
counts 2, 0, 0, 0 (so that the bin receiving tag value 3 holds pion sum 2). -/
def scenarioEvents : List (ℤ × ℤ × ℤ) :=
  [(3, 1, 2), (3, 2, 0), (70, 0, 0), (5, 1, 0)]

/-- Kaon yield histogram after processing the C2 scenario with
`MaxNchTag = 60`. -/
def hKScenario : Hist := (fillYields 60 scenarioEvents).1

/-- Pion yield histogram after processing the C2 scenario with
`MaxNchTag = 60`. -/
def hPiScenario : Hist := (fillYields 60 scenarioEvents).2

/-- Raw K/pi ratio histogram of the C2 scenario
(`hKoverPi = hK clone; hKoverPi->Divide (hPi)`). -/
def hKoverPiScenario : Hist := hKScenario.Divide hPiScenario

/-- The parameter container `KtoPiParameters` of `KtoPiAnalysis.cpp`.
Angles are real numbers because the defaults are `30 * pi / 180` and
`150 * pi / 180`. -/
structure KtoPiParameters where
  MaxNchTag : ℤ
  MaxEvents : ℤ
  EcmRef : ℚ
  MinNch : ℤ
  MinTheta : ℝ
  MaxTheta : ℝ
  IsGen : Bool

/-- The default-constructed parameters (`KtoPiParameters::KtoPiParameters`
together with the default command-line values of `main`):
`MaxNchTag = 60`, `MaxEvents = -1`, `EcmRef = 91.2`, `MinNch = 7`,
angles 30 and 150 degrees, `IsGen = false`. -/
noncomputable def defaultParameters : KtoPiParameters :=
  { MaxNchTag := 60
    MaxEvents := -1
    EcmRef := 456 / 5
    MinNch := 7
    MinTheta := 30 * Real.pi / 180
    MaxTheta := 150 * Real.pi / 180
    IsGen := false }

/-- The calibration accumulator: the four running sums `sumKAsK`,
`sumKAsPi`, `sumPiAsK`, `sumPiAsPi` and the track counter
`countEffTracks` of `KtoPiAnalyzer`.  The counter is a `long long` in the
source that starts at 0 and is only ever incremented, so `ℕ` is faithful. -/
structure PIDAccum where
  sumKAsK : ℚ
  sumKAsPi : ℚ
  sumPiAsK : ℚ
  sumPiAsPi : ℚ
  countEffTracks : ℕ

/-- Average `eKAsK_avg = sumKAsK / countEffTracks`. -/
def PIDAccum.avgKAsK (a : PIDAccum) : ℚ := a.sumKAsK / (a.countEffTracks : ℚ)

/-- Average `eKAsPi_avg = sumKAsPi / countEffTracks`. -/
def PIDAccum.avgKAsPi (a : PIDAccum) : ℚ := a.sumKAsPi / (a.countEffTracks : ℚ)

/-- Average `ePiAsK_avg = sumPiAsK / countEffTracks`. -/
def PIDAccum.avgPiAsK (a : PIDAccum) : ℚ := a.sumPiAsK / (a.countEffTracks : ℚ)

/-- Average `ePiAsPi_avg = sumPiAsPi / countEffTracks`. -/
def PIDAccum.avgPiAsPi (a : PIDAccum) : ℚ := a.sumPiAsPi / (a.countEffTracks : ℚ)

/-- The 2x2 confusion-matrix determinant
`det = eKAsK_avg * ePiAsPi_avg - ePiAsK_avg * eKAsPi_avg`. -/
def PIDAccum.det (a : PIDAccum) : ℚ :=
  a.avgKAsK * a.avgPiAsPi - a.avgPiAsK * a.avgKAsPi

/-- Clamping of the reconstructed-particle loop bound:
`nreco = (NReco < STRANGE_MAX_RECO) ? int (NReco) : STRANGE_MAX_RECO`. -/
def nrecoClamped (ev : EventRecord) : ℤ :=
  if ev.NReco < STRANGE_MAX_RECO then ev.NReco else STRANGE_MAX_RECO

/-- The out-of-capacity diagnostic for reconstructed particles:
emitted iff `NReco > STRANGE_MAX_RECO`. -/
def recoWarning (ev : EventRecord) : Bool :=
  decide (STRANGE_MAX_RECO < ev.NReco)

/-- Clamping of the generator-particle loop bound (`IsGen` path):
`ngen = (NGen < STRANGE_MAX_GEN) ? int (NGen) : STRANGE_MAX_GEN`. -/
def ngenClamped (ev : EventRecord) : ℤ :=
  if ev.NGen < STRANGE_MAX_GEN then ev.NGen else STRANGE_MAX_GEN

/-- The out-of-capacity diagnostic for generator particles:
emitted iff `NGen > STRANGE_MAX_GEN`. -/
def genWarning (ev : EventRecord) : Bool :=
  decide (STRANGE_MAX_GEN < ev.NGen)

/-- `sumRecoE = Sum (RecoE[i], i = 0 .. nreco - 1)` (a C `for` loop over a
negative bound runs zero times, which `Int.toNat` reproduces). -/
def sumRecoE (ev : EventRecord) : ℚ :=
  ((List.range (nrecoClamped ev).toNat).map ev.RecoE).sum

/-- The event selection of `KtoPiAnalyzer::analyze` (the three `continue`
guards): an event survives iff none of
`sumRecoE / EcmRef <= 0.5`, `Nch < MinNch`, `acos (ThrustZ) <= MinTheta`,
`acos (ThrustZ) >= MaxTheta` fires. -/
def eventSelected (par : KtoPiParameters) (ev : EventRecord) : Prop :=
  ¬ (sumRecoE ev / par.EcmRef ≤ 1 / 2)
  ∧ ¬ (ev.Nch < par.MinNch)
  ∧ ¬ (Real.arccos (ev.ThrustZ : ℝ) ≤ par.MinTheta)
  ∧ ¬ (par.MaxTheta ≤ Real.arccos (ev.ThrustZ : ℝ))

/-- Per-event counters of the reconstructed-track classification loop. -/
structure RecoCounts where
  NchTag : ℤ
  nK : ℤ
  nPi : ℤ
  acc : PIDAccum

/-- One iteration of the reconstructed-track loop in reco mode (`IsGen`
false): tag tests `RecoPIDKaon[i] >= 2` etc., the multiplicity-tag count
over the logical OR of the three tags, the kaon/pion tag counts, and the
calibration accumulation for every track with `RecoCharge[i] != 0`. -/
def recoStep (ev : EventRecord) (s : RecoCounts) (i : ℕ) : RecoCounts :=
  let isKaonTag := decide (2 ≤ ev.RecoPIDKaon i)
  let isPionTag := decide (2 ≤ ev.RecoPIDPion i)
  let isProtonTag := decide (2 ≤ ev.RecoPIDProton i)
  let s1 := if isKaonTag || isPionTag || isProtonTag
    then { s with NchTag := s.NchTag + 1 } else s
  let s2 := if isKaonTag then { s1 with nK := s1.nK + 1 } else s1
  let s3 := if isPionTag then { s2 with nPi := s2.nPi + 1 } else s2
  if ev.RecoCharge i ≠ 0 then
    { s3 with acc :=
      { sumKAsK := s3.acc.sumKAsK + ev.RecoEfficiencyKAsK i
        sumKAsPi := s3.acc.sumKAsPi + ev.RecoEfficiencyKAsPi i
        sumPiAsK := s3.acc.sumPiAsK + ev.RecoEfficiencyPiAsK i
        sumPiAsPi := s3.acc.sumPiAsPi + ev.RecoEfficiencyPiAsPi i
        countEffTracks := s3.acc.countEffTracks + 1 } }
  else s3

/-- The full reconstructed-track loop in reco mode, over the clamped bound. -/
def recoLoop (ev : EventRecord) (acc0 : PIDAccum) : RecoCounts :=
  (List.range (nrecoClamped ev).toNat).foldl (recoStep ev)
    { NchTag := 0, nK := 0, nPi := 0, acc := acc0 }

/-- The multiplicity-tag count alone (used in generator mode, where
`NchTag` is still defined by reconstructed tagged tracks). -/
def recoNchTag (ev : EventRecord) : ℤ :=
  (List.range (nrecoClamped ev).toNat).foldl
    (fun c i =>
      if decide (2 ≤ ev.RecoPIDKaon i) || decide (2 ≤ ev.RecoPIDPion i)
          || decide (2 ≤ ev.RecoPIDProton i)
      then c + 1 else c) 0

/-- Generator-level counting: `absPdg = (pdg >= 0 ? pdg : -pdg)`;
`321` counts as a kaon, `211` as a pion. -/
def genCounts (ev : EventRecord) : ℤ × ℤ :=
  (List.range (ngenClamped ev).toNat).foldl
    (fun p i =>
      let pdg := ev.GenID i
      let absPdg := if 0 ≤ pdg then pdg else -pdg
      let p1 := if absPdg = 321 then (p.1 + 1, p.2) else p
      if absPdg = 211 then (p1.1, p1.2 + 1) else p1) (0, 0)

/-- The mutable state carried across the event loop: the two raw yield
histograms and the calibration accumulator. -/
structure LoopState where
  hK : Hist
  hPi : Hist
  acc : PIDAccum

/-- The state of `KtoPiAnalyzer` right after construction: freshly booked
(zeroed) yield histograms and a zeroed calibration accumulator. -/
def initialState (par : KtoPiParameters) : LoopState :=
  { hK := bookYieldHist par.MaxNchTag
    hPi := bookYieldHist par.MaxNchTag
    acc := { sumKAsK := 0, sumKAsPi := 0, sumPiAsK := 0, sumPiAsPi := 0,
             countEffTracks := 0 } }

open Classical in
/-- The body of the event loop acting on one materialized event record:
selection guards, classification (reco or generator mode), overflow clamp,
and the two `Fill` calls.  A non-selected event leaves the state untouched
(`continue`). -/
noncomputable def processEvent (par : KtoPiParameters) (st : LoopState)
    (ev : EventRecord) : LoopState :=
  if eventSelected par ev then
    if par.IsGen then
      let t := clampTag par.MaxNchTag (recoNchTag ev)
      let p := genCounts ev
      { st with
        hK := st.hK.Fill (t : ℚ) ((p.1 : ℤ) : ℚ)
        hPi := st.hPi.Fill (t : ℚ) ((p.2 : ℤ) : ℚ) }
    else
      let r := recoLoop ev st.acc
      let t := clampTag par.MaxNchTag r.NchTag
      { hK := st.hK.Fill (t : ℚ) ((r.nK : ℤ) : ℚ)
        hPi := st.hPi.Fill (t : ℚ) ((r.nPi : ℤ) : ℚ)
        acc := r.acc }
  else st

/-- The sequential record store behind `StrangenessTreeMessenger`:
`entries` models `Tree->GetEntries ()`, `readBytes i` the return value of
`Tree->GetEntry (i)` (bytes read; `<= 0` is a short/failed read) and
`recordAt i` the record materialized when the read at `i` succeeds. -/
structure Store where
  entries : ℤ
  readBytes : ℤ → ℤ
  recordAt : ℤ → EventRecord

/-- `StrangenessTreeMessenger::GetEntry` for an open reader (`Tree` not
null): fail for a negative index, fail for an index at or past the entry
count, otherwise succeed iff the underlying read reports more than zero
bytes. -/
def Store.GetEntry (s : Store) (i : ℤ) : Bool :=
  if i < 0 then false
  else if s.entries ≤ i then false
  else decide (0 < s.readBytes i)

/-- The event-count cap at the top of `KtoPiAnalyzer::analyze`:
`if (par.MaxEvents > 0 && par.MaxEvents < nEntries) nEntries = par.MaxEvents`. -/
def effectiveEntries (maxEvents nEntries : ℤ) : ℤ :=
  if 0 < maxEvents ∧ maxEvents < nEntries then maxEvents else nEntries

/-- The event loop of `KtoPiAnalyzer::analyze`.  Note the modelled bug
surface: the loop calls `M->GetEntry (ievt)` and IGNORES its boolean
result, so after a failed read the previous record is still sitting in the
messenger buffer and is processed again.  `buf0` is the buffer content
before any successful read (the messenger members are merely
default-initialized in C++; a failed read leaves the buffer unchanged). -/
noncomputable def runLoop (par : KtoPiParameters) (s : Store)
    (buf0 : EventRecord) : LoopState :=
  ((List.range (effectiveEntries par.MaxEvents s.entries).toNat).foldl
    (fun (p : EventRecord × LoopState) (i : ℕ) =>
      let buf := if s.GetEntry ((i : ℕ) : ℤ) then s.recordAt ((i : ℕ) : ℤ) else p.1
      (buf, processEvent par p.2 buf))
    (buf0, initialState par)).2

/-- A cloned-and-`Reset` histogram (`hKCorrected`, `hPiCorrected` right
after booking): same binning, all contents and stored errors zero. -/
def emptyLike (h : Hist) : Hist :=
  { h with contents := fun _ => 0, sumw2 := fun _ => 0 }

/-- `SetBinContent (b, c)` followed by `SetBinError (b, e)`; `v = e²` is
the stored `fSumw2` entry. -/
def setBinContentVar (h : Hist) (b : ℕ) (c v : ℚ) : Hist :=
  { h with
    contents := Function.update h.contents b c
    sumw2 := Function.update h.sumw2 b v }

/-- The per-bin correction loop `for (ib = 1; ib <= nbins; ++ib)`,
abstracted over the per-bin corrected contents and stored variances
(which in the source read only the raw histograms and loop-invariant
averages). -/
def correctionLoop (n : ℕ) (cK vK cPi vPi : ℕ → ℚ) (hK0 hPi0 : Hist) :
    Hist × Hist :=
  (List.range n).foldl
    (fun p i =>
      (setBinContentVar p.1 (i + 1) (cK (i + 1)) (vK (i + 1)),
       setBinContentVar p.2 (i + 1) (cPi (i + 1)) (vPi (i + 1))))
    (hK0, hPi0)

/-- Corrected kaon content for one bin:
`NKtrue = (ePiAsPi_avg * NKtag - ePiAsK_avg * NPiTag) / det`, floored at 0
(`if (NKtrue < 0) NKtrue = 0`). -/
def correctedK (a : PIDAccum) (tagK tagPi : ℚ) : ℚ :=
  let x := (a.avgPiAsPi * tagK - a.avgPiAsK * tagPi) / a.det
  if x < 0 then 0 else x

/-- Corrected pion content for one bin:
`NPItrue = (-eKAsPi_avg * NKtag + eKAsK_avg * NPiTag) / det`, floored at 0. -/
def correctedPi (a : PIDAccum) (tagK tagPi : ℚ) : ℚ :=
  let x := (-a.avgKAsPi * tagK + a.avgKAsK * tagPi) / a.det
  if x < 0 then 0 else x

/-- Stored variance of the corrected kaon content.  The source computes
`eNKtrue = sqrt ((ePiAsPi_avg * eNKtag / det)² + (ePiAsK_avg * eNPitag / det)²)`
with `eNKtag = sqrt (vK)` and stores `eNKtrue` via `SetBinError`, i.e. it
stores `eNKtrue² = (ePiAsPi_avg / det)² vK + (ePiAsK_avg / det)² vPi`
(squaring cancels the square roots since the accumulated `fSumw2` entries
are sums of squares, hence nonnegative). -/
def correctedVarK (a : PIDAccum) (vK vPi : ℚ) : ℚ :=
  (a.avgPiAsPi / a.det) ^ 2 * vK + (a.avgPiAsK / a.det) ^ 2 * vPi

/-- Stored variance of the corrected pion content (symmetric to
`correctedVarK`). -/
def correctedVarPi (a : PIDAccum) (vK vPi : ℚ) : ℚ :=
  (a.avgKAsPi / a.det) ^ 2 * vK + (a.avgKAsK / a.det) ^ 2 * vPi

/-- Result of the post-loop correction phase of `KtoPiAnalyzer::analyze`.
`hK`/`hPi` are the raw histograms as the analyzer holds them after the
phase (the code never writes to them there), `hKoverPiCorrected` is `none`
while the corrected ratio histogram is still the null pointer, and
`warnDegenerate` records whether a degenerate-calibration warning was
printed (either "determinant is tiny" or "no tracks accumulated"). -/
structure CorrectionResult where
  hK : Hist
  hPi : Hist
  hKCorrected : Hist
  hPiCorrected : Hist
  hKoverPiCorrected : Option Hist
  warnDegenerate : Bool

/-- The correction phase: in reco mode with a positive track counter, form
the four averages and the determinant; if `|det| < 1e-8` warn and skip,
otherwise run the per-bin inversion loop and build the corrected ratio;
in reco mode with a zero counter warn and skip; in generator mode do
nothing. -/
def correctionStep (isGen : Bool) (a : PIDAccum) (hK hPi : Hist) :
    CorrectionResult :=
  if !isGen && decide (0 < a.countEffTracks) then
    if |a.det| < 1 / 100000000 then
      { hK := hK, hPi := hPi
        hKCorrected := emptyLike hK, hPiCorrected := emptyLike hPi
        hKoverPiCorrected := none, warnDegenerate := true }
    else
      let p := correctionLoop hK.nbins
        (fun ib => correctedK a (hK.contents ib) (hPi.contents ib))
        (fun ib => correctedVarK a (hK.sumw2 ib) (hPi.sumw2 ib))
        (fun ib => correctedPi a (hK.contents ib) (hPi.contents ib))
        (fun ib => correctedVarPi a (hK.sumw2 ib) (hPi.sumw2 ib))
        (emptyLike hK) (emptyLike hPi)
      { hK := hK, hPi := hPi
        hKCorrected := p.1, hPiCorrected := p.2
        hKoverPiCorrected := some (p.1.Divide p.2), warnDegenerate := false }
  else if !isGen then
    { hK := hK, hPi := hPi
      hKCorrected := emptyLike hK, hPiCorrected := emptyLike hPi
      hKoverPiCorrected := none, warnDegenerate := true }
  else
    { hK := hK, hPi := hPi
      hKCorrected := emptyLike hK, hPiCorrected := emptyLike hPi
      hKoverPiCorrected := none, warnDegenerate := false }

/-- The `IsGen` option parsing in `main`: the flag is true iff the raw
string is one of the seven literals listed in the source; every other
string (including the default `"false"`) yields false. -/
def parseIsGen (s : String) : Bool :=
  s == "1" || s == "true" || s == "True" || s == "TRUE"
    || s == "yes" || s == "Yes" || s == "YES"

/-- A calibration accumulator after one charged track with
`(KAsK, KAsPi, PiAsK, PiAsPi) = (0.9, 0.05, 0.05, 0.9)` (the spec's
synthetic calibration scenario).  Its determinant is `323/400`. -/
def accCalib : PIDAccum :=
  { sumKAsK := 9 / 10, sumKAsPi := 1 / 20, sumPiAsK := 1 / 20,
    sumPiAsPi := 9 / 10, countEffTracks := 1 }

/-- The untouched calibration accumulator (zero tracks). -/
def accDegenerate : PIDAccum :=
  { sumKAsK := 0, sumKAsPi := 0, sumPiAsK := 0, sumPiAsPi := 0,
    countEffTracks := 0 }

/-- An event record whose fields are all zero: the messenger buffer before
any successful read. -/
def zeroRecord : EventRecord :=
  { Nch := 0, ThrustZ := 0, NGen := 0, GenID := fun _ => 0, NReco := 0,
    RecoE := fun _ => 0, RecoCharge := fun _ => 0,
    RecoPIDKaon := fun _ => 0, RecoPIDPion := fun _ => 0,
    RecoPIDProton := fun _ => 0,
    RecoEfficiencyKAsK := fun _ => 0, RecoEfficiencyKAsPi := fun _ => 0,
    RecoEfficiencyPiAsK := fun _ => 0, RecoEfficiencyPiAsPi := fun _ => 0 }

/-- A record that passes every default selection cut and carries exactly
one reconstructed track, kaon-tagged, charged, with the synthetic
calibration values: energy sum 50 (fraction `50 / 91.2 > 0.5`),
`Nch = 10 ≥ 7`, `ThrustZ = 0` so `acos = pi/2`, inside the angular window. -/
def goodRecord : EventRecord :=
  { Nch := 10, ThrustZ := 0, NGen := 0, GenID := fun _ => 0, NReco := 1,
    RecoE := fun _ => 50, RecoCharge := fun _ => 1,
    RecoPIDKaon := fun _ => 2, RecoPIDPion := fun _ => 0,
    RecoPIDProton := fun _ => 0,
    RecoEfficiencyKAsK := fun _ => 9 / 10,
    RecoEfficiencyKAsPi := fun _ => 1 / 20,
    RecoEfficiencyPiAsK := fun _ => 1 / 20,
    RecoEfficiencyPiAsPi := fun _ => 9 / 10 }

/-- A record failing the multiplicity cut (`Nch = 0 < 7`). -/
def badNchRecord : EventRecord :=
  { zeroRecord with Nch := 0, NReco := 1, RecoE := fun _ => 50 }

/-- A record with declared counts `NReco = 3`, `NGen = 2` (used to witness
the bounds claim). -/
def smallCountsRecord : EventRecord :=
  { zeroRecord with NReco := 3, NGen := 2 }

/-- A two-entry store whose first read succeeds (1000 bytes) delivering
`goodRecord`, and whose second read fails (0 bytes): the concrete stream
exhibiting the ignored-read-failure behaviour. -/
def failingStore : Store :=
  { entries := 2
    readBytes := fun i => if i = 0 then 1000 else 0
    recordAt := fun _ => goodRecord }

/-! Basic access lemmas for the histogram model. -/

/-- `Fill` never changes the binning, so bin lookup commutes with it. -/
theorem Hist.Fill_FindBin (h : Hist) (x w y : ℚ) :
    (h.Fill x w).FindBin y = h.FindBin y := rfl

/-- Bin contents after a `Fill`. -/
theorem Hist.Fill_contents (h : Hist) (x w : ℚ) (b : ℕ) :
    (h.Fill x w).contents b =
      if b = h.FindBin x then h.contents b + w else h.contents b := by
  rcases eq_or_ne b (h.FindBin x) with rfl | hne
  · simp [Hist.Fill]
  · simp [Hist.Fill, Function.update_noteq hne, hne]

/-- Stored squared errors after a `Fill`. -/
theorem Hist.Fill_sumw2 (h : Hist) (x w : ℚ) (b : ℕ) :
    (h.Fill x w).sumw2 b =
      if b = h.FindBin x then h.sumw2 b + w * w else h.sumw2 b := by
  rcases eq_or_ne b (h.FindBin x) with rfl | hne
  · simp [Hist.Fill]
  · simp [Hist.Fill, Function.update_noteq hne, hne]

/-- A `Fill` whose target bin lies below `n` raises the total content over
bins `0 .. n-1` by exactly the filled weight (nothing is lost). -/
theorem Hist.Fill_sum (h : Hist) (x w : ℚ) (n : ℕ) (hb : h.FindBin x < n) :
    (Finset.range n).sum (h.Fill x w).contents
      = (Finset.range n).sum h.contents + w := by
  have hmem : h.FindBin x ∈ Finset.range n := Finset.mem_range.mpr hb
  have h1 : (Finset.range n).sum (h.Fill x w).contents
      = (h.contents (h.FindBin x) + w)
        + ((Finset.range n).erase (h.FindBin x)).sum h.contents := by
    simpa [Hist.Fill, Finset.sdiff_singleton_eq_erase] using
      Finset.sum_update_of_mem hmem h.contents (h.contents (h.FindBin x) + w)
  have h2 : h.contents (h.FindBin x)
      + ((Finset.range n).erase (h.FindBin x)).sum h.contents
      = (Finset.range n).sum h.contents := Finset.add_sum_erase _ _ hmem
  rw [h1, ← h2]
  ring

theorem bookYieldHist_contents (N : ℤ) (b : ℕ) : (bookYieldHist N).contents b = 0 := rfl

theorem bookYieldHist_sumw2 (N : ℤ) (b : ℕ) : (bookYieldHist N).sumw2 b = 0 := rfl

theorem findBin60_1 : (bookYieldHist 60).FindBin 1 = 1 := by
  have h16 : Int.toNat 16 = 16 := rfl
  norm_num [Hist.FindBin, bookYieldHist, h16]

theorem findBin60_3 : (bookYieldHist 60).FindBin 3 = 1 := by
  have h16 : Int.toNat 16 = 16 := rfl
  norm_num [Hist.FindBin, bookYieldHist, h16]

theorem findBin60_5 : (bookYieldHist 60).FindBin 5 = 2 := by
  have h16 : Int.toNat 16 = 16 := rfl
  norm_num [Hist.FindBin, bookYieldHist, h16]

theorem findBin60_60 : (bookYieldHist 60).FindBin 60 = 16 := by
  have h16 : Int.toNat 16 = 16 := rfl
  norm_num [Hist.FindBin, bookYieldHist, h16]
  all_goals omega

/-- The C2 scenario kaon histogram written as an explicit chain of fills. -/
theorem hKScenario_eq :
    hKScenario = ((((bookYieldHist 60).Fill 3 1).Fill 3 2).Fill 60 0).Fill 5 1 := by
  norm_num [hKScenario, fillYields, scenarioEvents, clampTag]

/-- The C2 scenario pion histogram written as an explicit chain of fills. -/
theorem hPiScenario_eq :
    hPiScenario = ((((bookYieldHist 60).Fill 3 2).Fill 3 0).Fill 60 0).Fill 5 0 := by
  norm_num [hPiScenario, fillYields, scenarioEvents, clampTag]


/-! The correction loop, characterized bin by bin. -/

theorem correctionLoop_apply (n : ℕ) (cK vK cPi vPi : ℕ → ℚ)
    (hK0 hPi0 : Hist) (b : ℕ) :
    ((correctionLoop n cK vK cPi vPi hK0 hPi0).1.contents b
       = if 1 ≤ b ∧ b ≤ n then cK b else hK0.contents b)
  ∧ ((correctionLoop n cK vK cPi vPi hK0 hPi0).1.sumw2 b
       = if 1 ≤ b ∧ b ≤ n then vK b else hK0.sumw2 b)
  ∧ ((correctionLoop n cK vK cPi vPi hK0 hPi0).2.contents b
       = if 1 ≤ b ∧ b ≤ n then cPi b else hPi0.contents b)
  ∧ ((correctionLoop n cK vK cPi vPi hK0 hPi0).2.sumw2 b
       = if 1 ≤ b ∧ b ≤ n then vPi b else hPi0.sumw2 b) := by
  induction n with
  | zero =>
    have hz : ¬ (1 ≤ b ∧ b = 0) := by omega
    simp [correctionLoop, hz]
  | succ n ih =>
    have hstep : correctionLoop (n + 1) cK vK cPi vPi hK0 hPi0
        = (setBinContentVar (correctionLoop n cK vK cPi vPi hK0 hPi0).1
             (n + 1) (cK (n + 1)) (vK (n + 1)),
           setBinContentVar (correctionLoop n cK vK cPi vPi hK0 hPi0).2
             (n + 1) (cPi (n + 1)) (vPi (n + 1))) := by
      unfold correctionLoop
      rw [List.range_succ, List.foldl_append]
      rfl
    obtain ⟨ih1, ih2, ih3, ih4⟩ := ih
    rw [hstep]
    rcases eq_or_ne b (n + 1) with rfl | hb
    · have hc : 1 ≤ n + 1 ∧ n + 1 ≤ n + 1 := by omega
      simp [setBinContentVar, hc]
    · have hcond : (1 ≤ b ∧ b ≤ n + 1) ↔ (1 ≤ b ∧ b ≤ n) := by omega
      simp only [setBinContentVar, Function.update_noteq hb]
      simp only [hcond]
      exact ⟨ih1, ih2, ih3, ih4⟩

/-! Helpers for the correction step. -/

theorem correctedK_eq_max (a : PIDAccum) (tagK tagPi : ℚ) :
    correctedK a tagK tagPi
      = max 0 ((a.avgPiAsPi * tagK - a.avgPiAsK * tagPi) / a.det) := by
  simp only [correctedK]
  rcases lt_or_le ((a.avgPiAsPi * tagK - a.avgPiAsK * tagPi) / a.det) 0 with h | h
  · simp only [if_pos h]
    exact (max_eq_left h.le).symm
  · simp only [if_neg (not_lt.mpr h)]
    exact (max_eq_right h).symm

theorem correctedPi_eq_max (a : PIDAccum) (tagK tagPi : ℚ) :
    correctedPi a tagK tagPi
      = max 0 ((-a.avgKAsPi * tagK + a.avgKAsK * tagPi) / a.det) := by
  simp only [correctedPi]
  rcases lt_or_le ((-a.avgKAsPi * tagK + a.avgKAsK * tagPi) / a.det) 0 with h | h
  · simp only [if_pos h]
    exact (max_eq_left h.le).symm
  · simp only [if_neg (not_lt.mpr h)]
    exact (max_eq_right h).symm

theorem correctionStep_hKCorrected (a : PIDAccum) (hK hPi : Hist)
    (h1 : 0 < a.countEffTracks) (h2 : ¬ (|a.det| < 1 / 100000000)) :
    (correctionStep false a hK hPi).hKCorrected
      = (correctionLoop hK.nbins
          (fun ib => correctedK a (hK.contents ib) (hPi.contents ib))
          (fun ib => correctedVarK a (hK.sumw2 ib) (hPi.sumw2 ib))
          (fun ib => correctedPi a (hK.contents ib) (hPi.contents ib))
          (fun ib => correctedVarPi a (hK.sumw2 ib) (hPi.sumw2 ib))
          (emptyLike hK) (emptyLike hPi)).1 := by
  have hc : (!false && decide (0 < a.countEffTracks)) = true := by simp [h1]
  simp only [correctionStep, hc, if_true]
  rw [if_neg h2]

theorem correctionStep_hPiCorrected (a : PIDAccum) (hK hPi : Hist)
    (h1 : 0 < a.countEffTracks) (h2 : ¬ (|a.det| < 1 / 100000000)) :
    (correctionStep false a hK hPi).hPiCorrected
      = (correctionLoop hK.nbins
          (fun ib => correctedK a (hK.contents ib) (hPi.contents ib))
          (fun ib => correctedVarK a (hK.sumw2 ib) (hPi.sumw2 ib))
          (fun ib => correctedPi a (hK.contents ib) (hPi.contents ib))
          (fun ib => correctedVarPi a (hK.sumw2 ib) (hPi.sumw2 ib))
          (emptyLike hK) (emptyLike hPi)).2 := by
  have hc : (!false && decide (0 < a.countEffTracks)) = true := by simp [h1]
  simp only [correctionStep, hc, if_true]
  rw [if_neg h2]

theorem emptyLike_contents (h : Hist) (b : ℕ) : (emptyLike h).contents b = 0 := rfl

theorem emptyLike_sumw2 (h : Hist) (b : ℕ) : (emptyLike h).sumw2 b = 0 := rfl

/-- C3: when the calibration track counter is positive and the determinant
satisfies `|det| >= 1e-8`, every bin `b` with `1 <= b <= nbins` of the
corrected kaon (resp. pion) aggregator holds exactly
`max (0, (ePiAsPi_avg * tagK - ePiAsK_avg * tagPi) / det)` (resp.
`max (0, (-eKAsPi_avg * tagK + eKAsK_avg * tagPi) / det)`), where the four
averages are the calibration running sums divided by the track counter and
`det = eKAsK_avg * ePiAsPi_avg - ePiAsK_avg * eKAsPi_avg`; consequently no
corrected bin value (at any bin `c` whatsoever) is negative. -/
theorem claim_C3 (a : PIDAccum) (hK hPi : Hist) (b c : ℕ)
    (h1 : 0 < a.countEffTracks) (h2 : 1 / 100000000 ≤ |a.det|)
    (hb1 : 1 ≤ b) (hb2 : b ≤ hK.nbins) :
    ((correctionStep false a hK hPi).hKCorrected.contents b
        = max 0 ((a.avgPiAsPi * hK.contents b - a.avgPiAsK * hPi.contents b)
                   / a.det))
  ∧ ((correctionStep false a hK hPi).hPiCorrected.contents b
        = max 0 ((-a.avgKAsPi * hK.contents b + a.avgKAsK * hPi.contents b)
                   / a.det))
  ∧ 0 ≤ (correctionStep false a hK hPi).hKCorrected.contents c
  ∧ 0 ≤ (correctionStep false a hK hPi).hPiCorrected.contents c := by
  have h2' : ¬ (|a.det| < 1 / 100000000) := not_lt.mpr h2
  rw [correctionStep_hKCorrected a hK hPi h1 h2',
    correctionStep_hPiCorrected a hK hPi h1 h2']
  have keyb := correctionLoop_apply hK.nbins
      (fun ib => correctedK a (hK.contents ib) (hPi.contents ib))
      (fun ib => correctedVarK a (hK.sumw2 ib) (hPi.sumw2 ib))
      (fun ib => correctedPi a (hK.contents ib) (hPi.contents ib))
      (fun ib => correctedVarPi a (hK.sumw2 ib) (hPi.sumw2 ib))
      (emptyLike hK) (emptyLike hPi) b
  have keyc := correctionLoop_apply hK.nbins
      (fun ib => correctedK a (hK.contents ib) (hPi.contents ib))
      (fun ib => correctedVarK a (hK.sumw2 ib) (hPi.sumw2 ib))
      (fun ib => correctedPi a (hK.contents ib) (hPi.contents ib))
      (fun ib => correctedVarPi a (hK.sumw2 ib) (hPi.sumw2 ib))
      (emptyLike hK) (emptyLike hPi) c
  refine ⟨?_, ?_, ?_, ?_⟩
  · rw [keyb.1, if_pos ⟨hb1, hb2⟩]
    exact correctedK_eq_max a _ _
  · rw [keyb.2.2.1, if_pos ⟨hb1, hb2⟩]
    exact correctedPi_eq_max a _ _
  · rw [keyc.1]
    split
    · rw [correctedK_eq_max]
      exact le_max_left _ _
    · rw [emptyLike_contents]
  · rw [keyc.2.2.1]
    split
    · rw [correctedPi_eq_max]
      exact le_max_left _ _
    · rw [emptyLike_contents]

/-- Witness for C3 at the synthetic calibration accumulator (one charged
track with matrix (0.9, 0.05; 0.05, 0.9), determinant 323/400) and the C2
scenario histograms, at bin 1 (and bin 0 for the nonnegativity part). -/
theorem claim_C3_witness :
    (0 < accCalib.countEffTracks
      ∧ 1 / 100000000 ≤ |accCalib.det|
      ∧ 1 ≤ hKScenario.nbins)
  ∧ ((correctionStep false accCalib hKScenario hPiScenario).hKCorrected.contents 1
        = max 0 ((accCalib.avgPiAsPi * hKScenario.contents 1
                    - accCalib.avgPiAsK * hPiScenario.contents 1) / accCalib.det))
  ∧ ((correctionStep false accCalib hKScenario hPiScenario).hPiCorrected.contents 1
        = max 0 ((-accCalib.avgKAsPi * hKScenario.contents 1
                    + accCalib.avgKAsK * hPiScenario.contents 1) / accCalib.det))
  ∧ 0 ≤ (correctionStep false accCalib hKScenario hPiScenario).hKCorrected.contents 0
  ∧ 0 ≤ (correctionStep false accCalib hKScenario hPiScenario).hPiCorrected.contents 0 := by
  have h1 : 0 < accCalib.countEffTracks := by norm_num [accCalib]
  have h2 : 1 / 100000000 ≤ |accCalib.det| := by
    have hd : accCalib.det = 323 / 400 := by
      norm_num [PIDAccum.det, PIDAccum.avgKAsK, PIDAccum.avgKAsPi,
        PIDAccum.avgPiAsK, PIDAccum.avgPiAsPi, accCalib]
    rw [hd, abs_of_pos (by norm_num)]
    norm_num
  have hn : 1 ≤ hKScenario.nbins := by
    rw [show hKScenario.nbins = 16 from rfl]
    omega
  exact ⟨⟨h1, h2, hn⟩,
    claim_C3 accCalib hKScenario hPiScenario 1 0 h1 h2 (le_refl 1) hn⟩

/-- C4: if the calibration track counter is zero, or `|det| < 1e-8`, the
correction step (in reco mode, the only mode that has one) is skipped for
all bins: the corrected aggregators stay in their freshly reset state, the
corrected ratio histogram is never built, the degenerate-calibration
warning is reported, and the raw aggregators are untouched. -/
theorem claim_C4 (a : PIDAccum) (hK hPi : Hist)
    (h : a.countEffTracks = 0 ∨ |a.det| < 1 / 100000000) :
    (correctionStep false a hK hPi).hKCorrected = emptyLike hK
  ∧ (correctionStep false a hK hPi).hPiCorrected = emptyLike hPi
  ∧ (correctionStep false a hK hPi).hKoverPiCorrected = none
  ∧ (correctionStep false a hK hPi).warnDegenerate = true
  ∧ (correctionStep false a hK hPi).hK = hK
  ∧ (correctionStep false a hK hPi).hPi = hPi := by
  by_cases h0 : 0 < a.countEffTracks
  · have hdet : |a.det| < 1 / 100000000 := by
      rcases h with h | h
      · exact absurd h (by omega)
      · exact h
    have hdet' : |a.det| < (100000000 : ℚ)⁻¹ := by rwa [one_div] at hdet
    simp [correctionStep, h0, hdet']
  · simp [correctionStep, h0]

/-- Witness for C4 at the zeroed calibration accumulator and the C2
scenario histograms. -/
theorem claim_C4_witness :
    (accDegenerate.countEffTracks = 0
      ∨ |accDegenerate.det| < 1 / 100000000)
  ∧ ((correctionStep false accDegenerate hKScenario hPiScenario).hKCorrected
        = emptyLike hKScenario
    ∧ (correctionStep false accDegenerate hKScenario hPiScenario).hPiCorrected
        = emptyLike hPiScenario
    ∧ (correctionStep false accDegenerate hKScenario hPiScenario).hKoverPiCorrected
        = none
    ∧ (correctionStep false accDegenerate hKScenario hPiScenario).warnDegenerate
        = true
    ∧ (correctionStep false accDegenerate hKScenario hPiScenario).hK = hKScenario
    ∧ (correctionStep false accDegenerate hKScenario hPiScenario).hPi = hPiScenario) :=
  ⟨Or.inl rfl,
    claim_C4 accDegenerate hKScenario hPiScenario (Or.inl rfl)⟩

/-- C1 counterexample: at the default configuration `MaxNchTag = 60` the
booked aggregators have `60 / 4 + 1 = 16` bins, not `60 + 1 = 61` bins —
the booking is NOT one bin per integer tag value `0 .. N`. -/
theorem claim_C1_counterexample :
    (bookYieldHist 60).nbins = 16 ∧ (bookYieldHist 60).nbins ≠ 60 + 1 := by
  constructor
  · rfl
  · rw [show (bookYieldHist 60).nbins = 16 from rfl]
    omega

/-- C1 (amended): for every configured max tag value `N ≥ 0` the kaon and
pion aggregators are booked identically as a histogram with `N / 4 + 1`
bins spanning `[-0.5, N + 0.5]` (so several consecutive tag values share a
bin), each bin holding a weighted sum and a sum of squared weights, both
initially zero; and every integer tag value `v` with `0 ≤ v ≤ N` falls
into one of the real bins `1 .. nbins`. -/
theorem claim_C1_amended (N v : ℤ) (b : ℕ)
    (hN : 0 ≤ N) (hv0 : 0 ≤ v) (hvN : v ≤ N) :
    (bookYieldHist N).nbins = (N / 4 + 1).toNat
  ∧ (bookYieldHist N).xlo = -(1 / 2)
  ∧ (bookYieldHist N).xhi = (N : ℚ) + 1 / 2
  ∧ (bookYieldHist N).contents b = 0
  ∧ (bookYieldHist N).sumw2 b = 0
  ∧ fillYields N [] = (bookYieldHist N, bookYieldHist N)
  ∧ 1 ≤ (bookYieldHist N).FindBin ((v : ℤ) : ℚ)
  ∧ (bookYieldHist N).FindBin ((v : ℤ) : ℚ) ≤ (bookYieldHist N).nbins := by
  have hv' : (0 : ℚ) ≤ (v : ℚ) := by exact_mod_cast hv0
  have hN' : (0 : ℚ) ≤ (N : ℚ) := by exact_mod_cast hN
  have hvN' : (v : ℚ) ≤ (N : ℚ) := by exact_mod_cast hvN
  have hn1 : 1 ≤ (N / 4 + 1).toNat := by omega
  have hfb : (bookYieldHist N).FindBin ((v : ℤ) : ℚ)
      = 1 + (Int.floor (((N / 4 + 1).toNat : ℚ) * ((v : ℚ) + 1 / 2)
               / ((N : ℚ) + 1))).toNat := by
    have hnotlo : ¬ ((v : ℚ) < -(1 / 2)) := by
      intro hcon
      linarith
    have hnothi : ¬ ((N : ℚ) + 1 / 2 ≤ (v : ℚ)) := by
      intro hcon
      linarith
    simp only [Hist.FindBin, bookYieldHist]
    rw [if_neg hnotlo, if_neg hnothi]
    rw [show ((v : ℚ) - -(1 / 2)) = (v : ℚ) + 1 / 2 by ring,
      show ((N : ℚ) + 1 / 2 - -(1 / 2)) = (N : ℚ) + 1 by ring]
  have hden : (0 : ℚ) < (N : ℚ) + 1 := by linarith
  have hnpos : (0 : ℚ) < (((N / 4 + 1).toNat : ℕ) : ℚ) := by
    have : (0 : ℕ) < (N / 4 + 1).toNat := by omega
    exact_mod_cast this
  have harg0 : (0 : ℚ) ≤ (((N / 4 + 1).toNat : ℕ) : ℚ) * ((v : ℚ) + 1 / 2)
      / ((N : ℚ) + 1) := by
    apply div_nonneg
    · apply mul_nonneg hnpos.le
      linarith
    · exact hden.le
  have hfl0 : 0 ≤ Int.floor ((((N / 4 + 1).toNat : ℕ) : ℚ) * ((v : ℚ) + 1 / 2)
      / ((N : ℚ) + 1)) := Int.floor_nonneg.mpr harg0
  have hargub : (((N / 4 + 1).toNat : ℕ) : ℚ) * ((v : ℚ) + 1 / 2) / ((N : ℚ) + 1)
      < (((N / 4 + 1).toNat : ℕ) : ℚ) := by
    rw [mul_div_assoc]
    have hlt : ((v : ℚ) + 1 / 2) / ((N : ℚ) + 1) < 1 := by
      rw [div_lt_one hden]
      linarith
    calc (((N / 4 + 1).toNat : ℕ) : ℚ) * (((v : ℚ) + 1 / 2) / ((N : ℚ) + 1))
        < (((N / 4 + 1).toNat : ℕ) : ℚ) * 1 := by
          exact mul_lt_mul_of_pos_left hlt hnpos
      _ = (((N / 4 + 1).toNat : ℕ) : ℚ) := mul_one _
  have hflub : Int.floor ((((N / 4 + 1).toNat : ℕ) : ℚ) * ((v : ℚ) + 1 / 2)
      / ((N : ℚ) + 1)) < ((N / 4 + 1).toNat : ℤ) := by
    apply Int.floor_lt.mpr
    push_cast
    push_cast at hargub
    exact hargub
  refine ⟨rfl, rfl, rfl, rfl, rfl, rfl, ?_, ?_⟩
  · rw [hfb]
    omega
  · rw [hfb, show (bookYieldHist N).nbins = (N / 4 + 1).toNat from rfl]
    omega

/-- Witness for C1 (amended) at `N = 60`, `v = 60`, `b = 0`. -/
theorem claim_C1_witness :
    ((0 : ℤ) ≤ 60 ∧ (0 : ℤ) ≤ 60 ∧ (60 : ℤ) ≤ 60)
  ∧ ((bookYieldHist 60).nbins = ((60 : ℤ) / 4 + 1).toNat
    ∧ (bookYieldHist 60).xlo = -(1 / 2)
    ∧ (bookYieldHist 60).xhi = ((60 : ℤ) : ℚ) + 1 / 2
    ∧ (bookYieldHist 60).contents 0 = 0
    ∧ (bookYieldHist 60).sumw2 0 = 0
    ∧ fillYields 60 [] = (bookYieldHist 60, bookYieldHist 60)
    ∧ 1 ≤ (bookYieldHist 60).FindBin (((60 : ℤ) : ℤ) : ℚ)
    ∧ (bookYieldHist 60).FindBin (((60 : ℤ) : ℤ) : ℚ) ≤ (bookYieldHist 60).nbins) :=
  ⟨⟨by norm_num, by norm_num, le_refl _⟩,
    claim_C1_amended 60 60 0 (by norm_num) (by norm_num) (le_refl _)⟩

/-- `Divide` never changes the binning either. -/
theorem Hist.Divide_FindBin (h1 h2 : Hist) (y : ℚ) :
    (h1.Divide h2).FindBin y = h1.FindBin y := rfl

theorem hKScenario_FindBin (x : ℚ) :
    hKScenario.FindBin x = (bookYieldHist 60).FindBin x := by
  rw [hKScenario_eq]
  simp [Hist.Fill_FindBin]

theorem hPiScenario_FindBin (x : ℚ) :
    hPiScenario.FindBin x = (bookYieldHist 60).FindBin x := by
  rw [hPiScenario_eq]
  simp [Hist.Fill_FindBin]

theorem hKScenario_contents_1 : hKScenario.contents 1 = 3 := by
  rw [hKScenario_eq]
  norm_num [Hist.Fill_contents, Hist.Fill_FindBin, findBin60_3, findBin60_5,
    findBin60_60, bookYieldHist_contents]

theorem hKScenario_contents_2 : hKScenario.contents 2 = 1 := by
  rw [hKScenario_eq]
  norm_num [Hist.Fill_contents, Hist.Fill_FindBin, findBin60_3, findBin60_5,
    findBin60_60, bookYieldHist_contents]

theorem hKScenario_contents_16 : hKScenario.contents 16 = 0 := by
  rw [hKScenario_eq]
  norm_num [Hist.Fill_contents, Hist.Fill_FindBin, findBin60_3, findBin60_5,
    findBin60_60, bookYieldHist_contents]

theorem hKScenario_sumw2_1 : hKScenario.sumw2 1 = 5 := by
  rw [hKScenario_eq]
  norm_num [Hist.Fill_sumw2, Hist.Fill_FindBin, findBin60_3, findBin60_5,
    findBin60_60, bookYieldHist_sumw2]

theorem hPiScenario_contents_1 : hPiScenario.contents 1 = 2 := by
  rw [hPiScenario_eq]
  norm_num [Hist.Fill_contents, Hist.Fill_FindBin, findBin60_3, findBin60_5,
    findBin60_60, bookYieldHist_contents]

theorem hPiScenario_sumw2_1 : hPiScenario.sumw2 1 = 4 := by
  rw [hPiScenario_eq]
  norm_num [Hist.Fill_sumw2, Hist.Fill_FindBin, findBin60_3, findBin60_5,
    findBin60_60, bookYieldHist_sumw2]

/-- C2: with `MaxNchTag = 60`, after the four scenario events (tags
3, 3, 70, 5 with kaon counts 1, 2, 0, 1 and pion counts 2, 0, 0, 0):
the aggregator bin receiving tag value 3 holds kaon sum 3; the tag-70
event is clamped to 60 and lands in the LAST real bin (not dropped),
which holds kaon sum 0; the bin receiving tag value 5 holds kaon sum 1;
the total kaon content over all bins (underflow and overflow included)
equals the brute-force sum of the per-event kaon counts; the bin of tag 3
holds pion sum 2; and there the raw K/pi ratio equals exactly `3/2` with
stored squared error given by the combined relative-variance formula
`ratio² ((eK/cK)² + (ePi/cPi)²)`. -/
theorem claim_C2 :
    hKScenario.contents (hKScenario.FindBin 3) = 3
  ∧ clampTag 60 70 = 60
  ∧ hKScenario.FindBin 60 = hKScenario.nbins
  ∧ hKScenario.contents (hKScenario.FindBin 60) = 0
  ∧ hKScenario.contents (hKScenario.FindBin 5) = 1
  ∧ (Finset.range (hKScenario.nbins + 2)).sum hKScenario.contents
      = (scenarioEvents.map fun e => ((e.2.1 : ℤ) : ℚ)).sum
  ∧ hPiScenario.contents (hPiScenario.FindBin 3) = 2
  ∧ hKoverPiScenario.contents (hKoverPiScenario.FindBin 3) = 3 / 2
  ∧ hKoverPiScenario.sumw2 (hKoverPiScenario.FindBin 3)
      = (3 / 2) ^ 2 * ((5 : ℚ) / 3 ^ 2 + 4 / 2 ^ 2) := by
  have fb3 : hKScenario.FindBin 3 = 1 := by
    rw [hKScenario_FindBin, findBin60_3]
  have fb5 : hKScenario.FindBin 5 = 2 := by
    rw [hKScenario_FindBin, findBin60_5]
  have fb60 : hKScenario.FindBin 60 = 16 := by
    rw [hKScenario_FindBin, findBin60_60]
  have fbp3 : hPiScenario.FindBin 3 = 1 := by
    rw [hPiScenario_FindBin, findBin60_3]
  have fbr3 : hKoverPiScenario.FindBin 3 = 1 := by
    rw [hKoverPiScenario, Hist.Divide_FindBin, hKScenario_FindBin, findBin60_3]
  have hsum : (Finset.range (hKScenario.nbins + 2)).sum hKScenario.contents
      = 4 := by
    rw [show hKScenario.nbins = 16 from rfl, hKScenario_eq]
    rw [Hist.Fill_sum _ _ _ _ (by
      simp only [Hist.Fill_FindBin, findBin60_5]
      omega)]
    rw [Hist.Fill_sum _ _ _ _ (by
      simp only [Hist.Fill_FindBin, findBin60_60]
      omega)]
    rw [Hist.Fill_sum _ _ _ _ (by
      simp only [Hist.Fill_FindBin, findBin60_3]
      omega)]
    rw [Hist.Fill_sum _ _ _ _ (by
      simp only [findBin60_3]
      omega)]
    rw [show (Finset.range (16 + 2)).sum (bookYieldHist 60).contents = 0 by
      simp [bookYieldHist_contents]]
    norm_num
  refine ⟨?_, ?_, ?_, ?_, ?_, ?_, ?_, ?_, ?_⟩
  · rw [fb3, hKScenario_contents_1]
  · rw [show clampTag 60 70 = 60 from rfl]
  · rw [fb60, show hKScenario.nbins = 16 from rfl]
  · rw [fb60, hKScenario_contents_16]
  · rw [fb5, hKScenario_contents_2]
  · rw [hsum]
    norm_num [scenarioEvents]
  · rw [fbp3, hPiScenario_contents_1]
  · rw [fbr3]
    norm_num [hKoverPiScenario, Hist.Divide, hKScenario_contents_1,
      hPiScenario_contents_1]
  · rw [fbr3]
    norm_num [hKoverPiScenario, Hist.Divide, hKScenario_contents_1,
      hPiScenario_contents_1, hKScenario_sumw2_1, hPiScenario_sumw2_1]

/-- C7: for an open reader, `GetEntry i` succeeds exactly when the index is
nonnegative, below the entry count, and the underlying store reads more
than zero bytes at it; it fails for a negative index, for an index at or
past the entry count, and for a short/failed read. -/
theorem claim_C7 (s : Store) (i : ℤ) :
    s.GetEntry i = true ↔ 0 ≤ i ∧ i < s.entries ∧ 0 < s.readBytes i := by
  unfold Store.GetEntry
  split_ifs with h1 h2
  · simp only [Bool.false_eq_true, false_iff]
    intro hcon
    omega
  · simp only [Bool.false_eq_true, false_iff]
    intro hcon
    omega
  · simp only [decide_eq_true_eq]
    constructor
    · intro h
      exact ⟨by omega, by omega, h⟩
    · intro h
      exact h.2.2

/-- C8 evaluation: the flag parser accepts exactly the seven listed
literals.  The default string "false" parses to false, the listed casings
of "true"/"1"/"yes" parse to true, but the casing "tRue" of "true" parses
to FALSE, contradicting the advertised case-insensitive behaviour. -/
theorem claim_C8_eval :
    parseIsGen "false" = false
  ∧ parseIsGen "true" = true
  ∧ parseIsGen "True" = true
  ∧ parseIsGen "TRUE" = true
  ∧ parseIsGen "1" = true
  ∧ parseIsGen "yes" = true
  ∧ parseIsGen "Yes" = true
  ∧ parseIsGen "YES" = true
  ∧ parseIsGen "tRue" = false
  ∧ "tRue".data.map Char.toLower = "true".data
  ∧ parseIsGen "nO" = false
  ∧ parseIsGen "0" = false := by
  refine ⟨?_, ?_, ?_, ?_, ?_, ?_, ?_, ?_, ?_, ?_, ?_, ?_⟩ <;> decide

/-- C10: the configured maximum event count caps the number of processed
entries exactly when it is strictly positive and strictly below the
stream's entry count; every non-positive value (0 included, not just the
documented -1) processes all entries, and so does a cap at or above the
entry count. -/
theorem claim_C10 (m n : ℤ) :
    (m ≤ 0 → effectiveEntries m n = n)
  ∧ (0 < m → m < n → effectiveEntries m n = m)
  ∧ (0 < m → n ≤ m → effectiveEntries m n = n) := by
  unfold effectiveEntries
  refine ⟨fun h1 => ?_, fun h1 h2 => ?_, fun h1 h2 => ?_⟩
  · rw [if_neg (by omega)]
  · rw [if_pos ⟨h1, h2⟩]
  · rw [if_neg (by omega)]

/-- Witness for C10: a zero cap processes all five entries; a cap of two
below five entries processes exactly two. -/
theorem claim_C10_witness :
    ((0 : ℤ) ≤ 0 ∧ effectiveEntries 0 5 = 5)
  ∧ ((0 : ℤ) < 2 ∧ (2 : ℤ) < 5 ∧ effectiveEntries 2 5 = 2) :=
  ⟨⟨le_refl 0, (claim_C10 0 5).1 (le_refl 0)⟩,
   ⟨by norm_num, by norm_num, (claim_C10 2 5).2.1 (by norm_num) (by norm_num)⟩⟩

/-- C9: every index the per-particle loops use is in bounds.  The loops of
the event loop (`sumRecoE`, `recoLoop`, `recoNchTag`, `genCounts`) all
iterate over `List.range (nrecoClamped ev).toNat` resp.
`List.range (ngenClamped ev).toNat`, so every used index `i` (resp. `j`)
stays strictly below the compiled capacity; the clamped iteration count
never exceeds the declared count (in particular a negative declared count
gives zero iterations); and the out-of-capacity diagnostic fires exactly
when the declared count exceeds the capacity. -/
theorem claim_C9 (ev : EventRecord) (i j : ℕ)
    (hi : i ∈ List.range (nrecoClamped ev).toNat)
    (hj : j ∈ List.range (ngenClamped ev).toNat) :
    ((i : ℤ) < STRANGE_MAX_RECO ∧ (j : ℤ) < STRANGE_MAX_GEN)
  ∧ ((nrecoClamped ev).toNat ≤ ev.NReco.toNat
      ∧ (ngenClamped ev).toNat ≤ ev.NGen.toNat)
  ∧ (recoWarning ev = true ↔ STRANGE_MAX_RECO < ev.NReco)
  ∧ (genWarning ev = true ↔ STRANGE_MAX_GEN < ev.NGen) := by
  simp only [List.mem_range] at hi hj
  refine ⟨⟨?_, ?_⟩, ⟨?_, ?_⟩, ?_, ?_⟩
  · simp only [nrecoClamped, STRANGE_MAX_RECO] at *
    split_ifs at hi <;> omega
  · simp only [ngenClamped, STRANGE_MAX_GEN] at *
    split_ifs at hj <;> omega
  · simp only [nrecoClamped, STRANGE_MAX_RECO]
    split_ifs <;> omega
  · simp only [ngenClamped, STRANGE_MAX_GEN]
    split_ifs <;> omega
  · simp only [recoWarning, decide_eq_true_eq]
  · simp only [genWarning, decide_eq_true_eq]

/-- Witness for C9 at a record with declared counts `NReco = 3`,
`NGen = 2`, at loop indices 0 and 1. -/
theorem claim_C9_witness :
    (0 ∈ List.range (nrecoClamped smallCountsRecord).toNat
      ∧ 1 ∈ List.range (ngenClamped smallCountsRecord).toNat)
  ∧ (((0 : ℕ) : ℤ) < STRANGE_MAX_RECO ∧ ((1 : ℕ) : ℤ) < STRANGE_MAX_GEN)
  ∧ ((nrecoClamped smallCountsRecord).toNat ≤ smallCountsRecord.NReco.toNat
      ∧ (ngenClamped smallCountsRecord).toNat ≤ smallCountsRecord.NGen.toNat)
  ∧ (recoWarning smallCountsRecord = true
      ↔ STRANGE_MAX_RECO < smallCountsRecord.NReco)
  ∧ (genWarning smallCountsRecord = true
      ↔ STRANGE_MAX_GEN < smallCountsRecord.NGen) := by
  have hi : 0 ∈ List.range (nrecoClamped smallCountsRecord).toNat := by
    rw [List.mem_range]
    rw [show (nrecoClamped smallCountsRecord).toNat = 3 from rfl]
    omega
  have hj : 1 ∈ List.range (ngenClamped smallCountsRecord).toNat := by
    rw [List.mem_range]
    rw [show (ngenClamped smallCountsRecord).toNat = 2 from rfl]
    omega
  exact ⟨⟨hi, hj⟩, claim_C9 smallCountsRecord 0 1 hi hj⟩

/-- C6: the event selector is a pure predicate: an event is included iff
the reconstructed energy fraction is strictly above one half, the charged
multiplicity is at least the configured minimum (inclusive), and
`acos (ThrustZ)` lies strictly between the configured angles; and a
non-selected event leaves the entire loop state (yield aggregators AND
calibration accumulator) unchanged. -/
theorem claim_C6 (par : KtoPiParameters) (ev : EventRecord) (st : LoopState) :
    (eventSelected par ev ↔
        (1 / 2 < sumRecoE ev / par.EcmRef
      ∧ par.MinNch ≤ ev.Nch
      ∧ par.MinTheta < Real.arccos (ev.ThrustZ : ℝ)
      ∧ Real.arccos (ev.ThrustZ : ℝ) < par.MaxTheta))
  ∧ (¬ eventSelected par ev → processEvent par st ev = st) := by
  constructor
  · unfold eventSelected
    simp [not_le]
  · intro h
    simp only [processEvent, if_neg h]

/-- Witness for C6 at the default parameters and a record failing the
multiplicity cut (`Nch = 0 < 7`): the record is not selected and
processing it leaves the freshly initialized state untouched. -/
theorem claim_C6_witness :
    ¬ eventSelected defaultParameters badNchRecord
  ∧ processEvent defaultParameters (initialState defaultParameters) badNchRecord
      = initialState defaultParameters := by
  have hns : ¬ eventSelected defaultParameters badNchRecord := by
    intro h
    exact h.2.1 (by norm_num [badNchRecord, zeroRecord, defaultParameters])
  exact ⟨hns, (claim_C6 defaultParameters badNchRecord
    (initialState defaultParameters)).2 hns⟩

/-- `goodRecord` passes all the default selection cuts. -/
theorem goodRecord_selected : eventSelected defaultParameters goodRecord := by
  have hsum : sumRecoE goodRecord = 50 := by
    rw [sumRecoE, show (nrecoClamped goodRecord).toNat = 1 from rfl]
    simp [goodRecord]
  have hz : ((goodRecord.ThrustZ : ℚ) : ℝ) = 0 := by
    norm_num [goodRecord]
  refine ⟨?_, ?_, ?_, ?_⟩
  · rw [hsum, show defaultParameters.EcmRef = 456 / 5 from rfl]
    norm_num
  · rw [show defaultParameters.MinNch = 7 from rfl,
      show goodRecord.Nch = 10 from rfl]
    norm_num
  · rw [hz, Real.arccos_zero,
      show defaultParameters.MinTheta = 30 * Real.pi / 180 from rfl]
    intro hcon
    have hpi := Real.pi_pos
    linarith
  · rw [hz, Real.arccos_zero,
      show defaultParameters.MaxTheta = 150 * Real.pi / 180 from rfl]
    intro hcon
    have hpi := Real.pi_pos
    linarith

/-- Evaluating the classification loop on `goodRecord`: one track,
kaon-tagged and charged, so one multiplicity tag, one kaon tag, no pion
tag, and one calibration-accumulator bump. -/
theorem recoLoop_goodRecord (a : PIDAccum) :
    recoLoop goodRecord a =
      { NchTag := 1, nK := 1, nPi := 0,
        acc := { sumKAsK := a.sumKAsK + 9 / 10, sumKAsPi := a.sumKAsPi + 1 / 20,
                 sumPiAsK := a.sumPiAsK + 1 / 20, sumPiAsPi := a.sumPiAsPi + 9 / 10,
                 countEffTracks := a.countEffTracks + 1 } } := by
  rw [recoLoop, show (nrecoClamped goodRecord).toNat = 1 from rfl]
  rw [show List.range 1 = [0] from rfl]
  norm_num [recoStep, goodRecord]

/-- Processing `goodRecord` from any loop state: fill the kaon histogram
at tag 1 with weight 1, the pion histogram at tag 1 with weight 0, and
bump the calibration accumulator once. -/
theorem processEvent_goodRecord (st : LoopState) :
    processEvent defaultParameters st goodRecord =
      { hK := st.hK.Fill 1 1, hPi := st.hPi.Fill 1 0,
        acc := { sumKAsK := st.acc.sumKAsK + 9 / 10,
                 sumKAsPi := st.acc.sumKAsPi + 1 / 20,
                 sumPiAsK := st.acc.sumPiAsK + 1 / 20,
                 sumPiAsPi := st.acc.sumPiAsPi + 9 / 10,
                 countEffTracks := st.acc.countEffTracks + 1 } } := by
  rw [processEvent, if_pos goodRecord_selected]
  simp only [show defaultParameters.IsGen = false from rfl, Bool.false_eq_true,
    if_false, recoLoop_goodRecord]
  rw [show clampTag defaultParameters.MaxNchTag (1 : ℤ) = 1 from rfl]
  norm_num

/-- C5 (bug evaluation): on a two-entry stream whose second read fails,
the loop — which ignores the result of `GetEntry` — processes the
still-buffered first record a second time: the kaon bin for tag 1 ends
with sum 2 instead of 1 and the calibration track counter with 2 instead
of 1, while the loop indeed continues past the failure (it does not
abort).  The claim says a failed read contributes nothing. -/
theorem claim_C5_eval :
    (runLoop defaultParameters failingStore zeroRecord).hK.contents 1 = 2
  ∧ (runLoop defaultParameters failingStore zeroRecord).acc.countEffTracks = 2
  ∧ failingStore.GetEntry 1 = false := by
  have hget0 : failingStore.GetEntry ((0 : ℕ) : ℤ) = true := by decide
  have hget1 : failingStore.GetEntry ((1 : ℕ) : ℤ) = false := by decide
  have hn : (effectiveEntries defaultParameters.MaxEvents
      failingStore.entries).toNat = 2 := rfl
  have hrec : failingStore.recordAt ((0 : ℕ) : ℤ) = goodRecord := rfl
  have hloop : runLoop defaultParameters failingStore zeroRecord
      = processEvent defaultParameters
          (processEvent defaultParameters (initialState defaultParameters)
            goodRecord) goodRecord := by
    rw [runLoop, hn, show List.range 2 = [0, 1] from rfl]
    simp only [List.foldl_cons, List.foldl_nil, hget0, hget1, if_true,
      Bool.false_eq_true, if_false, hrec]
  rw [hloop, processEvent_goodRecord, processEvent_goodRecord]
  refine ⟨?_, ?_, ?_⟩
  · rw [show (initialState defaultParameters).hK = bookYieldHist 60 from rfl]
    norm_num [Hist.Fill_contents, Hist.Fill_FindBin, findBin60_1,
      bookYieldHist_contents]
  · rw [show (initialState defaultParameters).acc.countEffTracks = 0 from rfl]
  · exact hget1
